import Mathlib

/-!
Verification of the entity-component simulation core of the GGEZ_Specs
repository (src/src/main.rs): components Position, CollisionBox,
ControllableTag and Image, the MovementSystem and CollisionSystem, and
the fixed-timestep tick driver.  Coordinates are `f32` in the source;
they are embedded as `ℚ`, on which every arithmetic step appearing in
the claims (adding and subtracting the constant 10, sums with box
extents) is exact, as it is in `f32` for the magnitudes involved.
The entity store is embedded as a list of entities in insertion order,
each holding its optional components; a `specs` join over storages is
iteration over the entities possessing all joined components, which the
embedding expresses by matching on the option fields.
-/

namespace GgezSpecs

/-- A 2-D point, embedding `nalgebra::Point2<f32>`. -/
structure Point2 where
  x : ℚ
  y : ℚ
deriving DecidableEq

/-- The `Position` component of src/src/main.rs. -/
structure Position where
  position : Point2
deriving DecidableEq

/-- The `CollisionBox` component of src/src/main.rs: an axis-aligned
rectangle given by its origin, height and width. -/
structure CollisionBox where
  origin : Point2
  height : ℚ
  width : ℚ
deriving DecidableEq

/-- The `Direction` input resource: four independent flags. -/
structure Direction where
  up : Bool
  down : Bool
  left : Bool
  right : Bool
deriving DecidableEq

/-- `Direction::new()`: all four flags false. -/
def Direction.new : Direction :=
  { up := false, down := false, left := false, right := false }

/-- An entity of the `specs` world: an optional value per component
table, plus tag-set membership for the null-storage `ControllableTag`.
The `Image` component is reduced to an opaque shared handle; its pixel
contents never enter the simulation core. -/
structure Entity where
  pos : Option Position
  box : Option CollisionBox
  image : Option Nat
  controllable : Bool
deriving DecidableEq

/-- The entity store, in insertion order (`VecStorage` iteration order). -/
abbrev World := List Entity

/-- The per-entity body of `MovementSystem::run` (src/src/main.rs lines
62-84): entities joined over mutable Position, mutable CollisionBox and
the ControllableTag have each held direction flag applied in program
order (up, down, left, right, a fixed 10-unit step each), and then the
collision-box origin is set to the new position.  Entities missing any
of the three components are untouched. -/
def MovementSystem.moveEntity (dir : Direction) (e : Entity) : Entity :=
  match e.pos, e.box, e.controllable with
  | some p, some b, true =>
    let p1 := if dir.up then { p.position with y := p.position.y - 10 } else p.position
    let p2 := if dir.down then { p1 with y := p1.y + 10 } else p1
    let p3 := if dir.left then { p2 with x := p2.x - 10 } else p2
    let p4 := if dir.right then { p3 with x := p3.x + 10 } else p3
    { e with pos := some ⟨p4⟩, box := some { b with origin := p4 } }
  | _, _, _ => e

/-- `MovementSystem::run`: the per-entity update over the whole store. -/
def MovementSystem.run (dir : Direction) (w : World) : World :=
  w.map (MovementSystem.moveEntity dir)

/-- The AABB overlap test of `CollisionSystem::run` (src/src/main.rs
lines 102-106), with `a` the player box and `b` the other box. -/
def overlaps (a b : CollisionBox) : Bool :=
  a.origin.x < b.origin.x + b.width && a.origin.x + a.width > b.origin.x &&
  a.origin.y < b.origin.y + b.height && a.origin.y + a.height > b.origin.y

/-- The inner loop of `CollisionSystem::run` (lines 101-109): against a
fixed player box, every entity joined over Position, CollisionBox and
NOT ControllableTag is tested, and each overlap emits one report.  The
source prints "Collision detected"; the embedding records the pair of
boxes of the report instead. -/
def CollisionSystem.inner (w : World) (playerBox : CollisionBox) :
    List (CollisionBox × CollisionBox) :=
  w.flatMap (fun e2 =>
    match e2.pos, e2.box, e2.controllable with
    | some _, some cb, false =>
      if overlaps playerBox cb then [(playerBox, cb)] else []
    | _, _, _ => [])

/-- `CollisionSystem::run` (lines 94-111): the outer loop joins
CollisionBox with ControllableTag (no Position required for the player),
and for each player box runs the inner loop over the whole store. -/
def CollisionSystem.run (w : World) : List (CollisionBox × CollisionBox) :=
  w.flatMap (fun e =>
    match e.box, e.controllable with
    | some playerBox, true => CollisionSystem.inner w playerBox
    | _, _ => [])

/-- `run_now` of the read-only CollisionSystem, as a state transformer:
its SystemData is three `ReadStorage`s (src/src/main.rs lines 88-92), so
the store it returns is the store it was given, alongside the reports. -/
def CollisionSystem.runNow (w : World) : World × List (CollisionBox × CollisionBox) :=
  (w, CollisionSystem.run w)

/-- The controlled set of the spec: entities with a CollisionBox and the
ControllableTag, projected to their boxes, in store order. -/
def controlledBoxes (w : World) : List CollisionBox :=
  w.filterMap (fun e => if e.controllable then e.box else none)

/-- The other set of the spec: entities with Position and CollisionBox
and no ControllableTag, projected to their boxes, in store order. -/
def otherBoxes (w : World) : List CollisionBox :=
  w.filterMap (fun e => if e.pos.isSome && !e.controllable then e.box else none)

/-- Modelled from the spec: the timestep pacing utility
(`timer::check_update_time`, an external collaborator whose code is not
in src/) keeps an accumulator of elapsed time; each call of
`MainState::update` loops while the accumulator still holds at least one
fixed step, consuming one step per iteration (the drop-accumulator of
spec section 4.4).  `checkUpdateCount` returns how many loop iterations
one call performs for a given fixed step and accumulated time, and the
leftover accumulated time carried to the next call. -/
def checkUpdateCount (step acc : ℚ) : Nat × ℚ :=
  if h : 0 < step ∧ step ≤ acc then
    let r := checkUpdateCount step (acc - step)
    (r.1 + 1, r.2)
  else
    (0, acc)
termination_by (⌊acc / step⌋).toNat
decreasing_by
  obtain ⟨hstep, hle⟩ := h
  have hs : step ≠ 0 := ne_of_gt hstep
  have hdiv : (acc - step) / step = acc / step - 1 := by
    rw [sub_div, div_self hs]
  have hfl : ⌊(acc - step) / step⌋ = ⌊acc / step⌋ - 1 := by
    rw [hdiv, Int.floor_sub_one]
  have hone : (1 : ℤ) ≤ ⌊acc / step⌋ := by
    rw [Int.le_floor]
    exact_mod_cast (one_le_div hstep).2 hle
  simp only [hfl]
  omega

/-- `World::maintain`: deferred cleanup of despawns.  No entity is ever
despawned in this program, so maintenance changes nothing. -/
def maintain (w : World) : World := w

/-- One simulation step of the loop body of `MainState::update`
(src/src/main.rs lines 230-233): Movement, then Collision (read-only),
then `maintain`. -/
def tickStep (dir : Direction) (w : World) : World :=
  maintain (CollisionSystem.runNow (MovementSystem.run dir w)).1

/-- `MainState::update` (lines 222-237): run the loop body as many times
as the pacing utility grants, and carry the leftover accumulated time. -/
def MainState.update (step acc : ℚ) (dir : Direction) (w : World) : World × ℚ :=
  ((tickStep dir)^[(checkUpdateCount step acc).1] w, (checkUpdateCount step acc).2)

/-- The width the spec scenario assigns the ship image. -/
def shipWidth : ℚ := 100

/-- The height the spec scenario assigns the ship image. -/
def shipHeight : ℚ := 50

/-- Entity A of the scenario (src/src/main.rs lines 164-178): position
(75,100), box origin (75,100), controllable. -/
def entityA : Entity :=
  { pos := some ⟨⟨75, 100⟩⟩
    box := some { origin := ⟨75, 100⟩, height := shipHeight, width := shipWidth }
    image := some 0
    controllable := true }

/-- Entity B of the scenario (lines 181-194): position (275,100), box
origin (275,100), not controllable. -/
def entityB : Entity :=
  { pos := some ⟨⟨275, 100⟩⟩
    box := some { origin := ⟨275, 100⟩, height := shipHeight, width := shipWidth }
    image := some 0
    controllable := false }

/-- The store after `MainState::new`: entity A, then entity B. -/
def initialWorld : World := [entityA, entityB]

/-- The input snapshot with only the right flag held. -/
def rightOnly : Direction :=
  { up := false, down := false, left := false, right := true }

/-- The Point2 that the four direction flags produce from a starting
point: left subtracts 10 from X, right adds 10 to X, up subtracts 10
from Y, down adds 10 to Y, all independent. -/
def specTarget (dir : Direction) (p : Point2) : Point2 :=
  ⟨p.x - (if dir.left then 10 else 0) + (if dir.right then 10 else 0),
   p.y - (if dir.up then 10 else 0) + (if dir.down then 10 else 0)⟩

/-- C1: for every entity possessing Position, CollisionBox and
ControllableTag, one Movement Step updates its Position by the four
independent 10-unit axis adjustments of the input snapshot (up: Y-10,
down: Y+10, left: X-10, right: X+10, combining freely), and then sets
its CollisionBox origin to the new Position. -/
theorem movement_step_updates_controlled (dir : Direction) (w : World)
    (i : Nat) (hi : i < w.length) (p : Position) (b : CollisionBox)
    (hp : (w.get ⟨i, hi⟩).pos = some p) (hb : (w.get ⟨i, hi⟩).box = some b)
    (hc : (w.get ⟨i, hi⟩).controllable = true) :
    ∃ hi' : i < (MovementSystem.run dir w).length,
      ((MovementSystem.run dir w).get ⟨i, hi'⟩).pos = some ⟨specTarget dir p.position⟩ ∧
      ((MovementSystem.run dir w).get ⟨i, hi'⟩).box =
        some { b with origin := specTarget dir p.position } := by
  have hlen : (MovementSystem.run dir w).length = w.length := by
    simp [MovementSystem.run]
  refine ⟨hlen ▸ hi, ?_⟩
  have hget : (MovementSystem.run dir w).get ⟨i, hlen ▸ hi⟩ =
      MovementSystem.moveEntity dir (w.get ⟨i, hi⟩) := by
    simp [MovementSystem.run]
  rw [hget]
  unfold MovementSystem.moveEntity
  rw [hp, hb, hc]
  rcases dir with ⟨u, d, l, r⟩
  cases u <;> cases d <;> cases l <;> cases r <;>
    simp [specTarget, Point2.mk.injEq]

/-- Witness for C1 at a concrete input: entity A moved with up and
right both held lands at (85, 90) with its box origin resynced. -/
theorem movement_step_updates_controlled_witness :
    ∃ hi' : 0 < (MovementSystem.run ⟨true, false, false, true⟩ [entityA]).length,
      ((MovementSystem.run ⟨true, false, false, true⟩ [entityA]).get ⟨0, hi'⟩).pos =
        some ⟨specTarget ⟨true, false, false, true⟩ ⟨75, 100⟩⟩ ∧
      ((MovementSystem.run ⟨true, false, false, true⟩ [entityA]).get ⟨0, hi'⟩).box =
        some { origin := specTarget ⟨true, false, false, true⟩ ⟨75, 100⟩,
               height := shipHeight, width := shipWidth } :=
  movement_step_updates_controlled ⟨true, false, false, true⟩ [entityA] 0 (by decide)
    ⟨⟨75, 100⟩⟩ { origin := ⟨75, 100⟩, height := shipHeight, width := shipWidth }
    rfl rfl rfl

/-- C2: after a Movement Step, every entity of the resulting store that
carries the ControllableTag together with a Position and a CollisionBox
has its box origin exactly equal to its Position. -/
theorem origin_eq_position_after_movement (dir : Direction) (w : World)
    (e : Entity) (he : e ∈ MovementSystem.run dir w) (hc : e.controllable = true)
    (p : Position) (b : CollisionBox) (hp : e.pos = some p) (hb : e.box = some b) :
    b.origin = p.position := by
  rcases List.mem_map.1 he with ⟨a, _, rfl⟩
  rcases a with ⟨ap, ab, ai, ac⟩
  cases ap with
  | none => cases ab <;> cases ac <;> simp_all [MovementSystem.moveEntity]
  | some p0 =>
    cases ab with
    | none => cases ac <;> simp_all [MovementSystem.moveEntity]
    | some b0 =>
      cases ac with
      | false => simp_all [MovementSystem.moveEntity]
      | true =>
        simp only [MovementSystem.moveEntity, Option.some.injEq] at hp hb
        subst hp
        subst hb
        rfl

/-- Witness for C2 at a concrete input: the entity produced by moving
entity A under the all-false snapshot sits in the step's output and
satisfies the invariant. -/
theorem origin_eq_position_after_movement_witness :
    ({ origin := ⟨75, 100⟩, height := shipHeight, width := shipWidth } :
        CollisionBox).origin = (Position.mk ⟨75, 100⟩).position :=
  origin_eq_position_after_movement Direction.new [entityA]
    { pos := some ⟨⟨75, 100⟩⟩
      box := some { origin := ⟨75, 100⟩, height := shipHeight, width := shipWidth }
      image := some 0
      controllable := true }
    (List.Mem.head _) rfl ⟨⟨75, 100⟩⟩
    { origin := ⟨75, 100⟩, height := shipHeight, width := shipWidth }
    rfl rfl

/-- C3: the Collision Step reports a pair as overlapping exactly when
the standard AABB strict-inequality test holds, and boxes whose edges
exactly touch are not reported. -/
theorem overlaps_iff_aabb (a b : CollisionBox) :
    (overlaps a b = true ↔
      (a.origin.x < b.origin.x + b.width ∧ a.origin.x + a.width > b.origin.x ∧
       a.origin.y < b.origin.y + b.height ∧ a.origin.y + a.height > b.origin.y)) ∧
    (a.origin.x + a.width = b.origin.x → overlaps a b = false) := by
  constructor
  · simp [overlaps, and_assoc]
  · intro h
    simp [overlaps, h]

/-- Witness for C3 at a concrete input: two 10-wide boxes whose
vertical edges exactly touch are not reported as overlapping. -/
theorem overlaps_iff_aabb_witness :
    overlaps { origin := ⟨0, 0⟩, height := 10, width := 10 }
      { origin := ⟨10, 0⟩, height := 10, width := 10 } = false :=
  (overlaps_iff_aabb { origin := ⟨0, 0⟩, height := 10, width := 10 }
    { origin := ⟨10, 0⟩, height := 10, width := 10 }).2 (by norm_num)

/-- Helper for C4: the inner collision loop over a store equals the
overlap filter over the other set of that store. -/
theorem collision_inner_eq_filter (a : CollisionBox) (w : World) :
    CollisionSystem.inner w a =
      (otherBoxes w).filterMap (fun b => if overlaps a b then some (a, b) else none) := by
  induction w with
  | nil => rfl
  | cons e t ih =>
    rcases e with ⟨ep, eb, ei, ec⟩
    cases ep <;> cases eb <;> cases ec <;>
      simp [CollisionSystem.inner, otherBoxes, List.filterMap_cons,
        List.flatMap_cons] at ih ⊢ <;>
      rw [← ih] <;>
      try rfl
    rename_i b0
    cases hov : overlaps a b0 <;> simp [hov]

/-- Helper for C4: the outer collision loop over a store `v`, with the
inner loop ranging over a fixed store `w`, equals one inner run per
box of the controlled set of `v`. -/
theorem collision_outer_eq_controlled (v w : World) :
    (v.flatMap (fun e =>
      match e.box, e.controllable with
      | some playerBox, true => CollisionSystem.inner w playerBox
      | _, _ => [])) =
      (controlledBoxes v).flatMap (fun a => CollisionSystem.inner w a) := by
  induction v with
  | nil => rfl
  | cons e t ih =>
    rcases e with ⟨ep, eb, ei, ec⟩
    cases eb <;> cases ec <;>
      simp [controlledBoxes, List.filterMap_cons, List.flatMap_cons] at ih ⊢ <;>
      rw [ih]

/-- C4: one Collision Step emits exactly one report per overlapping
(controlled, other) pair: its report list is the concatenation, over the
boxes of entities holding CollisionBox and ControllableTag, of the
overlap-filtered boxes of entities holding Position and CollisionBox
but not ControllableTag.  The step is a pure function of the store, so
a sustained overlap is reported anew on every step in which it holds. -/
theorem collision_reports_characterized (w : World) :
    CollisionSystem.run w =
      (controlledBoxes w).flatMap (fun a =>
        (otherBoxes w).filterMap (fun b => if overlaps a b then some (a, b) else none)) := by
  unfold CollisionSystem.run
  rw [collision_outer_eq_controlled w w]
  simp only [collision_inner_eq_filter]

/-- The scenario store with entity A at horizontal coordinate `x` (box
origin resynced) and entity B untouched. -/
def stateAt (x : ℚ) : World :=
  [{ pos := some ⟨⟨x, 100⟩⟩
     box := some { origin := ⟨x, 100⟩, height := shipHeight, width := shipWidth }
     image := some 0
     controllable := true },
   entityB]

/-- Helper for C5: one Movement Step with only right held shifts the
scenario store 10 units right. -/
theorem run_stateAt (x : ℚ) :
    MovementSystem.run rightOnly (stateAt x) = stateAt (x + 10) := by
  simp [MovementSystem.run, MovementSystem.moveEntity, stateAt, entityB, rightOnly]

/-- Helper for C5: `k` Movement Steps with only right held shift the
scenario store `10 * k` units right. -/
theorem iterate_stateAt (k : ℕ) (x : ℚ) :
    (MovementSystem.run rightOnly)^[k] (stateAt x) = stateAt (x + 10 * k) := by
  induction k generalizing x with
  | zero => norm_num
  | succ k ih =>
    rw [Function.iterate_succ_apply, run_stateAt, ih]
    have hx : x + 10 + 10 * (k : ℚ) = x + 10 * ((k : ℕ) + 1 : ℕ) := by
      push_cast
      ring
    rw [hx]

/-- Helper for C5: the Collision Step on the scenario store reduces to
the single overlap test between A's box and B's box. -/
theorem collision_run_stateAt (x : ℚ) :
    CollisionSystem.run (stateAt x) =
      if overlaps { origin := ⟨x, 100⟩, height := shipHeight, width := shipWidth }
          { origin := ⟨275, 100⟩, height := shipHeight, width := shipWidth } then
        [({ origin := ⟨x, 100⟩, height := shipHeight, width := shipWidth },
          { origin := ⟨275, 100⟩, height := shipHeight, width := shipWidth })]
      else [] := by
  cases h : overlaps { origin := ⟨x, 100⟩, height := shipHeight, width := shipWidth }
      { origin := ⟨275, 100⟩, height := shipHeight, width := shipWidth } <;>
    simp [CollisionSystem.run, CollisionSystem.inner, stateAt, entityB, h]

/-- Helper for C5: the scenario overlap test holds exactly when A's
left edge is short of B's right edge and A's right edge is past B's
left edge. -/
theorem overlaps_scenario (x : ℚ) :
    (overlaps { origin := ⟨x, 100⟩, height := shipHeight, width := shipWidth }
      { origin := ⟨275, 100⟩, height := shipHeight, width := shipWidth } = true) ↔
      (x < 375 ∧ 275 < x + 100) := by
  norm_num [overlaps, shipHeight, shipWidth, and_assoc]

/-- C5: in the two-ship scenario (A controllable at (75,100), B static
at (275,100), boxes 100 wide and 50 high, only right held) no collision
is reported before any movement nor through the first 10
movement-then-collision steps, and the 11th step, which puts A at
x = 185, produces the first report. -/
theorem scenario_first_report_on_step_11 :
    CollisionSystem.run initialWorld = [] ∧
    (∀ k : ℕ, k ≤ 10 →
      CollisionSystem.run ((MovementSystem.run rightOnly)^[k] initialWorld) = []) ∧
    (MovementSystem.run rightOnly)^[11] initialWorld = stateAt 185 ∧
    CollisionSystem.run ((MovementSystem.run rightOnly)^[11] initialWorld) =
      [({ origin := ⟨185, 100⟩, height := shipHeight, width := shipWidth },
        { origin := ⟨275, 100⟩, height := shipHeight, width := shipWidth })] := by
  have hinit : initialWorld = stateAt 75 := rfl
  have h11 : (MovementSystem.run rightOnly)^[11] initialWorld = stateAt 185 := by
    rw [hinit, iterate_stateAt]
    norm_num
  refine ⟨?_, ?_, h11, ?_⟩
  · rw [hinit, collision_run_stateAt, if_neg]
    rw [overlaps_scenario]
    norm_num
  · intro k hk
    rw [hinit, iterate_stateAt, collision_run_stateAt, if_neg]
    rw [overlaps_scenario]
    rintro ⟨-, h2⟩
    have hkq : (k : ℚ) ≤ 10 := by exact_mod_cast hk
    linarith
  · rw [h11, collision_run_stateAt, if_pos]
    rw [overlaps_scenario]
    norm_num

/-- A controllable entity whose box origin disagrees with its position:
such a store is not produced by the program's own initialization, but
the claim quantifies over every prior state. -/
def desyncedEntity : Entity :=
  { pos := some ⟨⟨0, 0⟩⟩
    box := some { origin := ⟨5, 5⟩, height := 1, width := 1 }
    image := none
    controllable := true }

/-- Counterexample to C6: with all four flags false the Movement Step
still resyncs every controllable entity's box origin to its position
(src/src/main.rs lines 81-82 run unconditionally), so a store holding a
desynced controllable entity is mutated by the all-false step. -/
theorem movement_allfalse_not_noop :
    MovementSystem.run Direction.new [desyncedEntity] ≠ [desyncedEntity] := by
  simp [MovementSystem.run, MovementSystem.moveEntity, desyncedEntity,
    Direction.new, Point2.mk.injEq]

/-- C6 as amended: the all-false Movement Step never changes any
Position, and it is a no-op on every store in which each controllable
entity holding a Position and a CollisionBox already has its box origin
equal to its Position (the invariant the program maintains); on other
stores it still resyncs box origins. -/
theorem movement_allfalse_noop_of_synced (w : World)
    (h : ∀ e ∈ w, e.controllable = true →
      ∀ p b, e.pos = some p → e.box = some b → b.origin = p.position) :
    MovementSystem.run Direction.new w = w := by
  unfold MovementSystem.run
  induction w with
  | nil => rfl
  | cons e t ih =>
    rw [List.map_cons]
    have ht : t.map (MovementSystem.moveEntity Direction.new) = t :=
      ih (fun e' he' => h e' (List.mem_cons_of_mem e he'))
    rw [ht]
    have he : MovementSystem.moveEntity Direction.new e = e := by
      rcases e with ⟨ep, eb, ei, ec⟩
      cases ep with
      | none => cases eb <;> cases ec <;> rfl
      | some p =>
        cases eb with
        | none => cases ec <;> rfl
        | some b =>
          cases ec with
          | false => rfl
          | true =>
            have hob : b.origin = p.position :=
              h _ (List.mem_cons_self _ _) rfl p b rfl rfl
            rcases p with ⟨pp⟩
            rcases b with ⟨bo, bh, bw⟩
            simp only at hob
            simp [MovementSystem.moveEntity, Direction.new, hob]
    rw [he]

/-- Witness for the amended C6: the program's initial store is synced,
so the all-false step leaves it untouched. -/
theorem movement_allfalse_noop_of_synced_witness :
    MovementSystem.run Direction.new initialWorld = initialWorld :=
  movement_allfalse_noop_of_synced initialWorld (by
    intro e he hc p b hp hb
    simp only [initialWorld, List.mem_cons, List.mem_singleton] at he
    rcases he with rfl | rfl | h
    · simp [entityA] at hp hb
      rw [← hp, ← hb]
    · simp [entityB] at hp hb
      rw [← hp, ← hb]
    · cases h)

/-- Helper for C7: the pacing loop consumes exactly `n` whole steps
from an accumulator of `n` steps plus a remainder below one step, and
carries the remainder. -/
theorem checkUpdateCount_exact (step r : ℚ) (h : 0 < step) (hr0 : 0 ≤ r)
    (hr : r < step) (n : ℕ) :
    checkUpdateCount step (n * step + r) = (n, r) := by
  induction n with
  | zero =>
    rw [checkUpdateCount]
    rw [dif_neg]
    · norm_num
    · rintro ⟨-, hle⟩
      push_cast at hle
      linarith
  | succ n ih =>
    rw [checkUpdateCount]
    rw [dif_pos]
    · have harg : ((n + 1 : ℕ) : ℚ) * step + r - step = (n : ℕ) * step + r := by
        push_cast
        ring
      rw [harg, ih]
    · refine ⟨h, ?_⟩
      have hn : (0 : ℚ) ≤ (n : ℕ) := by positivity
      push_cast
      nlinarith

/-- C7: a single tick-driver call with an accumulated elapsed time of
3.5 fixed steps runs the Movement-Collision-maintain loop body exactly
3 times and carries 0.5 of a fixed step to the next call. -/
theorem tick_driver_catchup (step : ℚ) (h : 0 < step) (dir : Direction) (w : World) :
    checkUpdateCount step (7 / 2 * step) = (3, 1 / 2 * step) ∧
    MainState.update step (7 / 2 * step) dir w = ((tickStep dir)^[3] w, 1 / 2 * step) := by
  have key : checkUpdateCount step (7 / 2 * step) = (3, 1 / 2 * step) := by
    have h1 : (7 / 2 : ℚ) * step = ((3 : ℕ) : ℚ) * step + 1 / 2 * step := by
      push_cast
      ring
    rw [h1, checkUpdateCount_exact step (1 / 2 * step) h (by positivity) (by linarith) 3]
  exact ⟨key, by simp [MainState.update, key]⟩

/-- Witness for C7 at a concrete input: with a fixed step of 1 and an
accumulator of 3.5, three loop iterations run and 0.5 is carried. -/
theorem tick_driver_catchup_witness :
    checkUpdateCount 1 (7 / 2 * 1) = (3, 1 / 2 * 1) ∧
    MainState.update 1 (7 / 2 * 1) Direction.new initialWorld =
      ((tickStep Direction.new)^[3] initialWorld, 1 / 2 * 1) :=
  tick_driver_catchup 1 (by norm_num) Direction.new initialWorld

/-- C8: the Collision Step mutates nothing: its SystemData is read-only,
so the store it hands back is the store it was given, and a second run
with no Movement Step in between sees the same store and produces the
identical report list. -/
theorem collision_step_pure_idempotent (w : World) :
    (CollisionSystem.runNow w).1 = w ∧
    (CollisionSystem.runNow (CollisionSystem.runNow w).1).1 = w ∧
    (CollisionSystem.runNow (CollisionSystem.runNow w).1).2 = (CollisionSystem.runNow w).2 :=
  ⟨rfl, rfl, rfl⟩

/-- A sequence of simulation steps, one input snapshot per step: each
step is the loop body of `MainState::update` (Movement, then Collision,
then maintain). -/
def simSteps (ds : List Direction) (w : World) : World :=
  ds.foldl (fun v d => tickStep d v) w

/-- Helper for C9: the Movement Step leaves an entity without the
ControllableTag untouched. -/
theorem moveEntity_noncontrollable (dir : Direction) (e : Entity)
    (hc : e.controllable = false) :
    MovementSystem.moveEntity dir e = e := by
  rcases e with ⟨ep, eb, ei, ec⟩
  simp only at hc
  subst hc
  cases ep <;> cases eb <;> rfl

/-- C9: an entity without the ControllableTag is never mutated: across
any sequence of simulation steps (Movement, Collision, maintain, under
arbitrary input snapshots) it keeps exactly its original components,
Position and CollisionBox included. -/
theorem noncontrollable_entities_static (ds : List Direction) (w : World)
    (i : Nat) (hi : i < w.length)
    (hc : (w.get ⟨i, hi⟩).controllable = false) :
    ∃ hi' : i < (simSteps ds w).length,
      (simSteps ds w).get ⟨i, hi'⟩ = w.get ⟨i, hi⟩ := by
  induction ds generalizing w with
  | nil => exact ⟨hi, rfl⟩
  | cons d ds ih =>
    have hlen : (tickStep d w).length = w.length := by
      simp [tickStep, maintain, CollisionSystem.runNow, MovementSystem.run]
    have hget : (tickStep d w).get ⟨i, hlen ▸ hi⟩ = w.get ⟨i, hi⟩ := by
      have : (tickStep d w).get ⟨i, hlen ▸ hi⟩ =
          MovementSystem.moveEntity d (w.get ⟨i, hi⟩) := by
        simp [tickStep, maintain, CollisionSystem.runNow, MovementSystem.run]
      rw [this, moveEntity_noncontrollable d _ hc]
    obtain ⟨hi', heq⟩ := ih (tickStep d w) (hlen ▸ hi) (by rw [hget]; exact hc)
    exact ⟨hi', heq.trans hget⟩

/-- Witness for C9 at a concrete input: entity B survives a right-held
step sequence unchanged. -/
theorem noncontrollable_entities_static_witness :
    ∃ hi' : 0 < (simSteps [rightOnly] [entityB]).length,
      (simSteps [rightOnly] [entityB]).get ⟨0, hi'⟩ = [entityB].get ⟨0, by decide⟩ :=
  noncontrollable_entities_static [rightOnly] [entityB] 0 (by decide) rfl

/-- C10: the two systems are deterministic: from equal store contents
and equal input snapshots, Movement produces equal stores and Collision
produces equal report sequences. -/
theorem systems_deterministic (w w' : World) (dir dir' : Direction)
    (hw : w = w') (hd : dir = dir') :
    MovementSystem.run dir w = MovementSystem.run dir' w' ∧
    CollisionSystem.run w = CollisionSystem.run w' := by
  subst hw
  subst hd
  exact ⟨rfl, rfl⟩

/-- Witness for C10 at a concrete input: two executions on the initial
store with the right-held snapshot agree. -/
theorem systems_deterministic_witness :
    MovementSystem.run rightOnly initialWorld = MovementSystem.run rightOnly initialWorld ∧
    CollisionSystem.run initialWorld = CollisionSystem.run initialWorld :=
  systems_deterministic initialWorld initialWorld rightOnly rightOnly rfl rfl

end GgezSpecs
